import Mathlib

/-!
Shallow embedding of the HetznerAutomation monitor (src/main.py): the
threshold-tracking notification engine, the traffic policy, and the
lifecycle operations (delete, rebuild, scheduled shutdown).

Modelling conventions:
* Usage percentages and configured thresholds are rationals (the source
  computes `used / total * 100` with real division and compares against
  numeric thresholds).
* The per-server dict `self.notified_thresholds` is a map
  `String → Option ℚ` (absent key = `none`; `dict.get(key, 0)` is
  `(m name).getD 0`).
* Provider calls that the source wraps in `try/except` are modelled with
  explicit failure oracles on the provider state (`deleteFails`,
  `createFails`, `listFails`); a raised exception on `delete`/`create`
  corresponds to the oracle returning `true`.
* Telegram sends (`send_telegram_message`) are modelled as an emitted
  message list; the source catches and logs send failures, so a send has
  no other effect.  A warning message carries the server name and usage
  (the rendered text) together with the threshold that fired (recorded in
  the state update and the accompanying log line).
-/

/-- A read-through snapshot of one cloud server, as the source consumes it
(`server.name`, `server.server_type.name`, `server.image.name`,
`server.datacenter.location.name`, `server.ssh_keys`,
`server.primary_disk_size`, `server.status`, `server.public_net.ipv4.ip`).
`probeFails` models the traffic probe raising for this server
(the `except` branch of `get_traffic_usage`). -/
structure ServerInfo where
  name : String
  server_type : String
  image : String
  location : String
  ssh_keys : List String
  primary_disk_size : Nat
  status : String
  ip : String
  probeFails : Bool
  deriving Repr, DecidableEq

/-- The dict returned by `get_traffic_usage`. -/
structure TrafficInfo where
  total : Nat
  used : Nat
  remaining : Int
  deriving Repr, DecidableEq

/-- The configuration fields the core logic reads
(`config['notification_thresholds']`, `config['traffic_limit_percent']`). -/
structure Config where
  notification_thresholds : List ℚ
  traffic_limit_percent : ℚ

/-- The cloud provider (`self.hcloud.servers`) with failure oracles for the
calls the source wraps in `try/except`.  `diskOf` and `assignIp` are the
provider-chosen attributes of a freshly created server. -/
structure Provider where
  servers : List ServerInfo
  deleteFails : String → Bool
  createFails : String → Bool
  listFails : Bool
  diskOf : String → Nat
  assignIp : String → String

/-- Messages sent through the Messenger (`send_telegram_message`). -/
inductive Msg where
  | warn (serverName : String) (usagePercent threshold : ℚ)
  | exceeded (serverName : String) (usagePercent : ℚ)
  | shutdownDone (serverName : String)
  deriving Repr, DecidableEq

/-- The per-server last-notified-threshold map (`self.notified_thresholds`). -/
def Notified : Type := String → Option ℚ

/-- `self.notified_thresholds.get(server_key, 0)`. -/
def getNotified (m : Notified) (name : String) : ℚ :=
  (m name).getD 0

/-- `self.notified_thresholds[server_key] = threshold`. -/
def setNotified (m : Notified) (name : String) (t : ℚ) : Notified :=
  fun n => if n = name then some t else m n

/-- `self.notified_thresholds.pop(server.name, None)`. -/
def clearNotified (m : Notified) (name : String) : Notified :=
  fun n => if n = name then none else m n

/-- `get_all_servers` (lines 169-175): `self.hcloud.servers.get_all()`, with
the `except` branch returning `[]`. -/
def get_all_servers (p : Provider) : List ServerInfo :=
  if p.listFails then [] else p.servers

/-- `self.hcloud.servers.get_by_name(server_name)`: the first server with
that name, or nothing. -/
def get_by_name (p : Provider) (name : String) : Option ServerInfo :=
  p.servers.find? (fun s => decide (s.name = name))

/-- `get_traffic_usage` (lines 177-193): on success,
`total = server.primary_disk_size * 1000`, `used = 500` (the source stubs
the probe with this simulated value); the `except` branch returns the fixed
default `{'total': 1000, 'used': 0, 'remaining': 1000}`. -/
def get_traffic_usage (s : ServerInfo) : TrafficInfo :=
  if s.probeFails then
    { total := 1000, used := 0, remaining := 1000 }
  else
    { total := s.primary_disk_size * 1000
      used := 500
      remaining := (s.primary_disk_size * 1000 : Int) - 500 }

/-- Line 203: `usage_percent = (traffic_info['used'] / traffic_info['total']) * 100`. -/
def usagePercentOf (info : TrafficInfo) : ℚ :=
  ((info.used : ℚ) / (info.total : ℚ)) * 100

/-- The `for threshold in ...` loop of `check_notification_thresholds`
(lines 220-230): the first threshold `t` in list order with
`usage_percent >= t and last_notified < t` sends a warning, records the
threshold, and breaks; the third component is the threshold that fired. -/
def checkThresholdLoop (notified : Notified) (name : String) (usage last : ℚ) :
    List ℚ → Notified × List Msg × Option ℚ
  | [] => (notified, [], none)
  | t :: ts =>
    if usage ≥ t ∧ last < t then
      (setNotified notified name t, [Msg.warn name usage t], some t)
    else
      checkThresholdLoop notified name usage last ts

/-- `check_notification_thresholds` (lines 215-230): looks up
`last_notified` with default `0` and runs the threshold loop. -/
def check_notification_thresholds (notified : Notified) (thresholds : List ℚ)
    (name : String) (usage : ℚ) : Notified × List Msg × Option ℚ :=
  checkThresholdLoop notified name usage (getNotified notified name) thresholds

/-- `delete_server` (lines 248-257): looks the server up by name; if found,
issues the delete (an exception — `deleteFails` — is caught and falls
through to `return False`); if the lookup finds nothing the function also
falls through to `return False`. -/
def delete_server (p : Provider) (name : String) : Provider × Bool :=
  match get_by_name p name with
  | none => (p, false)
  | some s =>
    if p.deleteFails name then (p, false)
    else ({ p with servers := p.servers.filter (fun x => decide (x.name ≠ s.name)) }, true)

/-- `handle_traffic_exceeded` (lines 232-246): sends the over-limit alert
first, then attempts the delete; only on a successful delete is the
server's notified-threshold entry popped. -/
def handle_traffic_exceeded (p : Provider) (notified : Notified) (name : String)
    (usage : ℚ) : Provider × Notified × List Msg :=
  let msgs := [Msg.exceeded name usage]
  let r := delete_server p name
  if r.2 then (r.1, clearNotified notified name, msgs)
  else (r.1, notified, msgs)

/-- The per-server body of `check_traffic_and_notify` (lines 204-210),
given the usage percent computed on line 203: first the notification
threshold check, then, when `usage_percent >= traffic_limit_percent`, the
over-limit handler. -/
def processSample (p : Provider) (notified : Notified) (cfg : Config)
    (name : String) (usage : ℚ) : Provider × Notified × List Msg :=
  let c := check_notification_thresholds notified cfg.notification_thresholds name usage
  if usage ≥ cfg.traffic_limit_percent then
    let h := handle_traffic_exceeded p c.1 name usage
    (h.1, h.2.1, c.2.1 ++ h.2.2)
  else (p, c.1, c.2.1)

/-- The `for server in servers` loop of `check_traffic_and_notify`
(lines 200-213).  A zero traffic total makes line 203 raise
`ZeroDivisionError`, which the per-server `except` catches, skipping the
server. -/
def checkTrafficLoop (cfg : Config) :
    Provider → Notified → List ServerInfo → Provider × Notified × List Msg
  | p, notified, [] => (p, notified, [])
  | p, notified, s :: rest =>
    let info := get_traffic_usage s
    if info.total = 0 then checkTrafficLoop cfg p notified rest
    else
      let r := processSample p notified cfg s.name (usagePercentOf info)
      let r2 := checkTrafficLoop cfg r.1 r.2.1 rest
      (r2.1, r2.2.1, r.2.2 ++ r2.2.2)

/-- `check_traffic_and_notify` (lines 195-213). -/
def check_traffic_and_notify (p : Provider) (notified : Notified) (cfg : Config) :
    Provider × Notified × List Msg :=
  checkTrafficLoop cfg p notified (get_all_servers p)

/-- `servers.create(...)` as used on lines 281-287: fails (raises) when the
`createFails` oracle says so; otherwise appends a fresh server built from
the spec, with provider-chosen disk size and address.  The spec fields are
exactly the `server_config` dict of `rebuild_server`. -/
structure ServerCreateSpec where
  name : String
  server_type : String
  image : String
  location : String
  ssh_keys : List String
  deriving Repr, DecidableEq

def create_server (p : Provider) (spec : ServerCreateSpec) : Provider × Option ServerInfo :=
  if p.createFails spec.name then (p, none)
  else
    let s : ServerInfo :=
      { name := spec.name
        server_type := spec.server_type
        image := spec.image
        location := spec.location
        ssh_keys := spec.ssh_keys
        primary_disk_size := p.diskOf spec.server_type
        status := "running"
        ip := p.assignIp spec.name
        probeFails := false }
    ({ p with servers := p.servers ++ [s] }, some s)

/-- `rebuild_server` (lines 259-297): reads the current server's spec into
`server_config`, deletes the server (a raising delete is caught and
returns `False` with nothing changed), waits (not modelled), then
recreates from the saved spec; a raising create is caught and returns
`False` with the server already gone.  `update_cloudflare_dns`
(lines 299-313) only logs, so it has no modelled effect. -/
def rebuild_server (p : Provider) (name : String) : Provider × Bool :=
  match get_by_name p name with
  | none => (p, false)
  | some server =>
    let server_config : ServerCreateSpec :=
      { name := server.name
        server_type := server.server_type
        image := server.image
        location := server.location
        ssh_keys := server.ssh_keys }
    if p.deleteFails name then (p, false)
    else
      let p1 : Provider :=
        { p with servers := p.servers.filter (fun x => decide (x.name ≠ server.name)) }
      match create_server p1 server_config with
      | (p2, some _) => (p2, true)
      | (p2, none) => (p2, false)

/-- The `for server in servers` loop of `shutdown_servers` (lines 343-346):
each server of the snapshot is deleted via `delete_server`; a success sends
a completion message, a failure sends nothing and the loop continues.
`self.notified_thresholds` is never touched here. -/
def shutdownLoop : Provider → List ServerInfo → Provider × List Msg
  | p, [] => (p, [])
  | p, s :: rest =>
    let r := delete_server p s.name
    if r.2 then
      let r2 := shutdownLoop r.1 rest
      (r2.1, Msg.shutdownDone s.name :: r2.2)
    else
      shutdownLoop r.1 rest

/-- `shutdown_servers` (lines 338-346). -/
def shutdown_servers (p : Provider) : Provider × List Msg :=
  shutdownLoop p (get_all_servers p)

/-! Concrete fixtures used by counterexamples and witnesses. -/

/-- A fleet member used in concrete scenarios. -/
def serverA : ServerInfo :=
  { name := "A", server_type := "cx21", image := "ubuntu-22.04", location := "fsn1"
    ssh_keys := ["ops-key"], primary_disk_size := 40, status := "running"
    ip := "192.0.2.10", probeFails := false }

def serverB : ServerInfo :=
  { serverA with name := "B", ip := "192.0.2.11" }

def serverC : ServerInfo :=
  { serverA with name := "C", ip := "192.0.2.12" }

/-- A provider holding only `serverA`, with no failures. -/
def providerA : Provider :=
  { servers := [serverA]
    deleteFails := fun _ => false
    createFails := fun _ => false
    listFails := false
    diskOf := fun _ => 40
    assignIp := fun _ => "192.0.2.99" }

/-- A provider with no servers at all. -/
def providerEmpty : Provider :=
  { providerA with servers := [] }

/-- The empty notified-thresholds map. -/
def notifiedNone : Notified := fun _ => none

/-- Successive `check_notification_thresholds` calls for one server with the
notified map threaded through (the spec's sequence of `evaluate` calls with
no intervening reset); returns the final map and the threshold fired by
each call. -/
def evalSeq (notified : Notified) (thresholds : List ℚ) (name : String) :
    List ℚ → Notified × List (Option ℚ)
  | [] => (notified, [])
  | u :: us =>
    let c := check_notification_thresholds notified thresholds name u
    let r := evalSeq c.1 thresholds name us
    (r.1, c.2.2 :: r.2)

/-- The stored `lastNotified` value (with the dict's default 0) after each
call of the sequence. -/
def evalSeqTrace (notified : Notified) (thresholds : List ℚ) (name : String) :
    List ℚ → List ℚ
  | [] => []
  | u :: us =>
    let c := check_notification_thresholds notified thresholds name u
    getNotified c.1 name :: evalSeqTrace c.1 thresholds name us

/-- The server freshly created from the spec read off `s` (lines 281-287),
with provider-chosen disk size and address. -/
def rebuiltServer (p : Provider) (s : ServerInfo) : ServerInfo :=
  { name := s.name, server_type := s.server_type, image := s.image,
    location := s.location, ssh_keys := s.ssh_keys,
    primary_disk_size := p.diskOf s.server_type, status := "running",
    ip := p.assignIp s.name, probeFails := false }

/-- Notification thresholds up to 90 with destroy threshold 90. -/
def cfg90 : Config :=
  { notification_thresholds := [10, 20, 30, 50, 90], traffic_limit_percent := 90 }

/-- A notified map where server A was last warned at the 50% threshold. -/
def notifiedA50 : Notified := fun n => if n = "A" then some 50 else none

/-- A provider whose delete calls always raise. -/
def providerDeleteFails : Provider :=
  { providerA with deleteFails := fun _ => true }

/-- A server whose traffic probe raises. -/
def serverProbeFails : ServerInfo :=
  { serverA with probeFails := true }

/-- The claim's concrete server: `web1`, type `cx21`, image `ubuntu-22.04`,
location `fsn1`. -/
def serverWeb1 : ServerInfo :=
  { name := "web1", server_type := "cx21", image := "ubuntu-22.04", location := "fsn1"
    ssh_keys := ["ops-key"], primary_disk_size := 40, status := "running"
    ip := "192.0.2.20", probeFails := false }

def providerWeb : Provider :=
  { providerA with servers := [serverWeb1] }

/-- The claim's batch scenario: fleet [A,B,C] where deleting B fails. -/
def providerABC : Provider :=
  { providerA with
    servers := [serverA, serverB, serverC]
    deleteFails := fun n => decide (n = "B") }


/-! Characterizations of the threshold loop. -/

theorem checkThresholdLoop_fired (notified : Notified) (name : String) (usage last : ℚ) :
    ∀ l : List ℚ, (checkThresholdLoop notified name usage last l).2.2
      = l.find? (fun t => decide (usage ≥ t) && decide (last < t)) := by
  intro l
  induction l with
  | nil => rfl
  | cons t ts ih =>
    by_cases h : usage ≥ t ∧ last < t
    · simp [checkThresholdLoop, h, List.find?_cons_of_pos, h.1, h.2]
    · rw [Decidable.not_and_iff_or_not] at h
      rcases h with h | h
      · simp only [checkThresholdLoop]
        rw [if_neg (by exact fun hc => h hc.1), List.find?_cons_of_neg, ih]
        simp [h]
      · simp only [checkThresholdLoop]
        rw [if_neg (by exact fun hc => h hc.2), List.find?_cons_of_neg, ih]
        simp [h]

theorem checkThresholdLoop_eq_some (notified : Notified) (name : String)
    (usage last t : ℚ) :
    ∀ l : List ℚ, (checkThresholdLoop notified name usage last l).2.2 = some t →
      checkThresholdLoop notified name usage last l
        = (setNotified notified name t, [Msg.warn name usage t], some t)
      ∧ usage ≥ t ∧ last < t := by
  intro l
  induction l with
  | nil => intro h; exact absurd h (by simp [checkThresholdLoop])
  | cons u ts ih =>
    intro h
    by_cases hc : usage ≥ u ∧ last < u
    · have hloop : checkThresholdLoop notified name usage last (u :: ts)
          = (setNotified notified name u, [Msg.warn name usage u], some u) := by
        simp [checkThresholdLoop, hc]
      rw [hloop] at h
      obtain rfl : u = t := by simpa using h
      exact ⟨hloop, hc⟩
    · have hloop : checkThresholdLoop notified name usage last (u :: ts)
          = checkThresholdLoop notified name usage last ts := by
        simp [checkThresholdLoop, hc]
      rw [hloop] at h ⊢
      exact ih h

theorem checkThresholdLoop_eq_none (notified : Notified) (name : String)
    (usage last : ℚ) :
    ∀ l : List ℚ, (checkThresholdLoop notified name usage last l).2.2 = none →
      checkThresholdLoop notified name usage last l = (notified, [], none) := by
  intro l
  induction l with
  | nil => intro _; rfl
  | cons u ts ih =>
    intro h
    by_cases hc : usage ≥ u ∧ last < u
    · simp [checkThresholdLoop, hc] at h
    · have hloop : checkThresholdLoop notified name usage last (u :: ts)
          = checkThresholdLoop notified name usage last ts := by
        simp [checkThresholdLoop, hc]
      rw [hloop] at h ⊢
      exact ih h

theorem find?_and_eq_find? (p q : ℚ → Bool) :
    ∀ l : List ℚ, (∀ x ∈ l, q x = true) →
      l.find? (fun x => p x && q x) = l.find? p := by
  intro l
  induction l with
  | nil => intro _; rfl
  | cons x xs ih =>
    intro hq
    have hx : q x = true := hq x (List.mem_cons_self x xs)
    by_cases hp : p x = true
    · rw [List.find?_cons_of_pos _ (by simp [hp, hx]), List.find?_cons_of_pos _ hp]
    · rw [List.find?_cons_of_neg _ (by simp [hp]), List.find?_cons_of_neg _ (by simpa using hp)]
      exact ih (fun y hy => hq y (List.mem_cons_of_mem x hy))

theorem check_fired_eq_find? (notified : Notified) (thresholds : List ℚ)
    (name : String) (usage : ℚ) :
    (check_notification_thresholds notified thresholds name usage).2.2
      = thresholds.find?
          (fun t => decide (usage ≥ t) && decide (getNotified notified name < t)) :=
  checkThresholdLoop_fired notified name usage (getNotified notified name) thresholds

theorem check_step_some (notified : Notified) (thresholds : List ℚ)
    (name : String) (usage t : ℚ)
    (h : (check_notification_thresholds notified thresholds name usage).2.2 = some t) :
    getNotified notified name < t
    ∧ (check_notification_thresholds notified thresholds name usage).1
        = setNotified notified name t
    ∧ (check_notification_thresholds notified thresholds name usage).2.1
        = [Msg.warn name usage t] := by
  have := checkThresholdLoop_eq_some notified name usage (getNotified notified name) t
    thresholds h
  refine ⟨this.2.2, ?_, ?_⟩
  · show (checkThresholdLoop notified name usage (getNotified notified name) thresholds).1 = _
    rw [this.1]
  · show (checkThresholdLoop notified name usage (getNotified notified name) thresholds).2.1 = _
    rw [this.1]

theorem check_step_none (notified : Notified) (thresholds : List ℚ)
    (name : String) (usage : ℚ)
    (h : (check_notification_thresholds notified thresholds name usage).2.2 = none) :
    (check_notification_thresholds notified thresholds name usage).1 = notified
    ∧ (check_notification_thresholds notified thresholds name usage).2.1 = [] := by
  have := checkThresholdLoop_eq_none notified name usage (getNotified notified name)
    thresholds h
  constructor
  · show (checkThresholdLoop notified name usage (getNotified notified name) thresholds).1 = _
    rw [this]
  · show (checkThresholdLoop notified name usage (getNotified notified name) thresholds).2.1 = _
    rw [this]

theorem getNotified_set (m : Notified) (name : String) (t : ℚ) :
    getNotified (setNotified m name t) name = t := by
  simp [getNotified, setNotified]

theorem check_step_mono (notified : Notified) (thresholds : List ℚ)
    (name : String) (usage : ℚ) :
    getNotified notified name
      ≤ getNotified (check_notification_thresholds notified thresholds name usage).1 name := by
  rcases h : (check_notification_thresholds notified thresholds name usage).2.2 with _ | t
  · rw [(check_step_none notified thresholds name usage h).1]
  · obtain ⟨hlt, hset, -⟩ := check_step_some notified thresholds name usage t h
    rw [hset, getNotified_set]
    exact le_of_lt hlt

/-- C1: with no previously notified threshold for the server and an
ascending list of positive thresholds, a single
`check_notification_thresholds` call fires the first threshold `t` in
ascending scan order with `usagePercent ≥ t` (every listed threshold beats
the absent last-notified value), records `lastNotified = t` when it fires,
and changes nothing and fires none when no threshold is crossed;
concretely, with thresholds `[10,20,30,50]` and usage 55%, a first call
fires 10 and a second call on the updated state fires 20. -/
theorem evaluate_first_ascending_match
    (notified : Notified) (name : String) (usage : ℚ) (thresholds : List ℚ)
    (hnone : notified name = none)
    (hasc : thresholds.Chain' (· < ·))
    (hpos : ∀ t ∈ thresholds, 0 < t) :
    ((check_notification_thresholds notified thresholds name usage).2.2
        = thresholds.find? (fun t => decide (usage ≥ t)))
    ∧ (∀ t : ℚ, (check_notification_thresholds notified thresholds name usage).2.2 = some t →
        (check_notification_thresholds notified thresholds name usage).1 name = some t)
    ∧ ((check_notification_thresholds notified thresholds name usage).2.2 = none →
        (check_notification_thresholds notified thresholds name usage).1 = notified)
    ∧ (check_notification_thresholds notifiedNone [10, 20, 30, 50] "A" 55).2.2 = some 10
    ∧ (check_notification_thresholds
        (check_notification_thresholds notifiedNone [10, 20, 30, 50] "A" 55).1
        [10, 20, 30, 50] "A" 55).2.2 = some 20 := by
  have hlast : getNotified notified name = 0 := by simp [getNotified, hnone]
  refine ⟨?_, ?_, ?_, by decide, by decide⟩
  · rw [check_fired_eq_find?, hlast]
    exact find?_and_eq_find? _ _ thresholds
      (fun x hx => decide_eq_true (hpos x hx))
  · intro t ht
    obtain ⟨-, hset, -⟩ := check_step_some notified thresholds name usage t ht
    rw [hset]
    simp [setNotified]
  · intro h
    exact (check_step_none notified thresholds name usage h).1

theorem evaluate_first_ascending_match_witness :
    (notifiedNone "A" = none)
    ∧ (List.Chain' (· < ·) [(10 : ℚ), 20, 30, 50])
    ∧ (∀ t ∈ [(10 : ℚ), 20, 30, 50], 0 < t)
    ∧ (((check_notification_thresholds notifiedNone [10, 20, 30, 50] "A" 55).2.2
          = [(10 : ℚ), 20, 30, 50].find? (fun t => decide ((55 : ℚ) ≥ t)))
      ∧ (∀ t : ℚ, (check_notification_thresholds notifiedNone [10, 20, 30, 50] "A" 55).2.2
            = some t →
          (check_notification_thresholds notifiedNone [10, 20, 30, 50] "A" 55).1 "A" = some t)
      ∧ ((check_notification_thresholds notifiedNone [10, 20, 30, 50] "A" 55).2.2 = none →
          (check_notification_thresholds notifiedNone [10, 20, 30, 50] "A" 55).1 = notifiedNone)
      ∧ (check_notification_thresholds notifiedNone [10, 20, 30, 50] "A" 55).2.2 = some 10
      ∧ (check_notification_thresholds
          (check_notification_thresholds notifiedNone [10, 20, 30, 50] "A" 55).1
          [10, 20, 30, 50] "A" 55).2.2 = some 20) :=
  ⟨rfl, by norm_num [List.chain'_cons], by decide,
    evaluate_first_ascending_match notifiedNone "A" 55 [10, 20, 30, 50] rfl
      (by norm_num [List.chain'_cons]) (by decide)⟩

theorem evalSeq_spec (thresholds : List ℚ) (name : String) :
    ∀ (usages : List ℚ) (notified : Notified),
      List.Chain' (· < ·) ((evalSeq notified thresholds name usages).2.reduceOption)
      ∧ (∀ x ∈ (evalSeq notified thresholds name usages).2.reduceOption,
          getNotified notified name < x)
      ∧ getNotified notified name
          ≤ getNotified (evalSeq notified thresholds name usages).1 name
      ∧ List.Chain' (· ≤ ·)
          (getNotified notified name :: evalSeqTrace notified thresholds name usages) := by
  intro usages
  induction usages with
  | nil =>
    intro notified
    exact ⟨List.chain'_nil, by simp [evalSeq], le_refl _, by simp [evalSeqTrace]⟩
  | cons u us ih =>
    intro notified
    have hun : evalSeq notified thresholds name (u :: us)
        = ((evalSeq (check_notification_thresholds notified thresholds name u).1
              thresholds name us).1,
           (check_notification_thresholds notified thresholds name u).2.2
             :: (evalSeq (check_notification_thresholds notified thresholds name u).1
                  thresholds name us).2) := rfl
    have hut : evalSeqTrace notified thresholds name (u :: us)
        = getNotified (check_notification_thresholds notified thresholds name u).1 name
            :: evalSeqTrace (check_notification_thresholds notified thresholds name u).1
                thresholds name us := rfl
    rw [hun, hut]
    rcases h : (check_notification_thresholds notified thresholds name u).2.2 with _ | t
    · obtain ⟨h1, -⟩ := check_step_none notified thresholds name u h
      rw [h1]
      obtain ⟨ih1, ih2, ih3, ih4⟩ := ih notified
      refine ⟨by simpa using ih1, ?_, ih3, ?_⟩
      · intro x hx
        exact ih2 x (by simpa using hx)
      · rw [List.chain'_cons]
        exact ⟨le_refl _, ih4⟩
    · obtain ⟨hlt, hset, -⟩ := check_step_some notified thresholds name u t h
      rw [hset]
      obtain ⟨ih1, ih2, ih3, ih4⟩ := ih (setNotified notified name t)
      have hkey : getNotified (setNotified notified name t) name = t :=
        getNotified_set notified name t
      refine ⟨?_, ?_, ?_, ?_⟩
      · rw [List.reduceOption_cons_of_some, List.chain'_cons']
        refine ⟨?_, ih1⟩
        intro y hy
        have hmem := List.mem_of_mem_head? hy
        have := ih2 y hmem
        rwa [hkey] at this
      · intro x hx
        rw [List.reduceOption_cons_of_some] at hx
        rcases List.mem_cons.mp hx with rfl | hx'
        · exact hlt
        · have := ih2 x hx'
          rw [hkey] at this
          exact lt_trans hlt this
      · calc getNotified notified name ≤ t := le_of_lt hlt
          _ = getNotified (setNotified notified name t) name := hkey.symm
          _ ≤ _ := ih3
      · rw [List.chain'_cons]
        rw [hkey] at ih4 ⊢
        exact ⟨le_of_lt hlt, ih4⟩

/-- C5: between resets, the sequence of thresholds fired by successive
`check_notification_thresholds` calls for one server (ignoring calls firing
none) is strictly increasing, and the stored last-notified value
(dict default 0) is non-decreasing across every call of the sequence. -/
theorem monotonic_staging (notified : Notified) (thresholds : List ℚ)
    (name : String) (usages : List ℚ)
    (husage : List.Chain' (· ≤ ·) usages) :
    List.Chain' (· < ·) ((evalSeq notified thresholds name usages).2.reduceOption)
    ∧ List.Chain' (· ≤ ·)
        (getNotified notified name :: evalSeqTrace notified thresholds name usages) :=
  ⟨(evalSeq_spec thresholds name usages notified).1,
   (evalSeq_spec thresholds name usages notified).2.2.2⟩

theorem monotonic_staging_witness :
    List.Chain' (· ≤ ·) [(15 : ℚ), 55]
    ∧ (List.Chain' (· < ·)
        ((evalSeq notifiedNone [10, 20, 30, 50] "A" [15, 55]).2.reduceOption)
      ∧ List.Chain' (· ≤ ·)
          (getNotified notifiedNone "A"
            :: evalSeqTrace notifiedNone [10, 20, 30, 50] "A" [15, 55])) :=
  ⟨by norm_num [List.chain'_cons],
   monotonic_staging notifiedNone [10, 20, 30, 50] "A" [15, 55]
     (by norm_num [List.chain'_cons])⟩

/-! Lifecycle helper lemmas. -/

theorem delete_server_absent (p : Provider) (name : String)
    (h : get_by_name p name = none) :
    delete_server p name = (p, false) := by
  unfold delete_server
  rw [h]

theorem delete_server_providerError (p : Provider) (name : String)
    (herr : p.deleteFails name = true) :
    delete_server p name = (p, false) := by
  unfold delete_server
  rcases hg : get_by_name p name with _ | s
  · rfl
  · simp [herr]

theorem delete_server_failed_frame (p : Provider) (name : String)
    (h : (delete_server p name).2 = false) :
    (delete_server p name).1 = p := by
  unfold delete_server at h ⊢
  rcases hg : get_by_name p name with _ | s
  · rfl
  · cases hd : p.deleteFails name
    · rw [hg] at h
      simp [hd] at h
    · simp [hd]

theorem handle_traffic_exceeded_msgs (p : Provider) (n : Notified)
    (name : String) (usage : ℚ) :
    (handle_traffic_exceeded p n name usage).2.2 = [Msg.exceeded name usage] := by
  unfold handle_traffic_exceeded
  cases hr : (delete_server p name).2 <;> simp [hr]

theorem handle_traffic_exceeded_provider (p : Provider) (n : Notified)
    (name : String) (usage : ℚ) :
    (handle_traffic_exceeded p n name usage).1 = (delete_server p name).1 := by
  unfold handle_traffic_exceeded
  cases hr : (delete_server p name).2 <;> simp [hr]

theorem processSample_over_limit (p : Provider) (notified : Notified)
    (cfg : Config) (name : String) (usage : ℚ)
    (hover : usage ≥ cfg.traffic_limit_percent) :
    (processSample p notified cfg name usage).2.2
      = (check_notification_thresholds notified cfg.notification_thresholds name usage).2.1
          ++ [Msg.exceeded name usage]
    ∧ (processSample p notified cfg name usage).1 = (delete_server p name).1 := by
  simp only [processSample]
  rw [if_pos hover]
  exact ⟨by rw [handle_traffic_exceeded_msgs], by rw [handle_traffic_exceeded_provider]⟩

/-! Fixtures for the destroy-priority and error-path scenarios. -/

/-- C2 counterexample: usage 95% is at or above the destroy threshold 90%
and 90 is among the notification thresholds (server A last warned at 50%),
yet the very same sample emits the threshold-90 warning together with the
over-limit destroy alert — the destroy decision does not suppress the
`Warn(90)` for that sample, because `check_traffic_and_notify` runs the
threshold check before the over-limit check. -/
theorem destroy_priority_counterexample :
    Msg.warn "A" 95 90 ∈ (processSample providerA notifiedA50 cfg90 "A" 95).2.2
    ∧ Msg.exceeded "A" 95 ∈ (processSample providerA notifiedA50 cfg90 "A" 95).2.2 := by
  decide

/-- C2 amended: when `usagePercent ≥ traffic_limit_percent` the sample does
trigger the destroy path (the over-limit alert is emitted), but the
notification-threshold check still runs first on the same sample, and
whatever threshold it fires — possibly 90 — is warned as well: destroy
happens in addition to, not instead of, the warning. -/
theorem destroy_and_warn_both_fire (p : Provider) (notified : Notified)
    (cfg : Config) (name : String) (usage t : ℚ)
    (hover : usage ≥ cfg.traffic_limit_percent)
    (hfired : (check_notification_thresholds notified cfg.notification_thresholds
        name usage).2.2 = some t) :
    Msg.exceeded name usage ∈ (processSample p notified cfg name usage).2.2
    ∧ Msg.warn name usage t ∈ (processSample p notified cfg name usage).2.2 := by
  obtain ⟨hmsgs, -⟩ := processSample_over_limit p notified cfg name usage hover
  rw [hmsgs]
  obtain ⟨-, -, hwarn⟩ := check_step_some notified cfg.notification_thresholds name usage t hfired
  rw [hwarn]
  constructor
  · exact List.mem_append_right _ (List.mem_singleton.mpr rfl)
  · exact List.mem_append_left _ (List.mem_singleton.mpr rfl)

theorem destroy_and_warn_both_fire_witness :
    ((95 : ℚ) ≥ cfg90.traffic_limit_percent)
    ∧ ((check_notification_thresholds notifiedA50 cfg90.notification_thresholds
          "A" 95).2.2 = some 90)
    ∧ (Msg.exceeded "A" 95 ∈ (processSample providerA notifiedA50 cfg90 "A" 95).2.2
      ∧ Msg.warn "A" 95 90 ∈ (processSample providerA notifiedA50 cfg90 "A" 95).2.2) :=
  ⟨by decide, by decide,
    destroy_and_warn_both_fire providerA notifiedA50 cfg90 "A" 95 90
      (by decide) (by decide)⟩

/-- C3 counterexample: `web1` is absent from the provider, yet
`delete_server` returns failure (`False`), not success — the lookup finding
nothing falls through to `return False`. -/
theorem idempotent_destroy_counterexample :
    get_by_name providerEmpty "web1" = none
    ∧ (delete_server providerEmpty "web1").2 = false := by
  decide

/-- C3 amended: calling destroy on a server name absent from the directory
returns failure (`False`) and changes nothing — the source treats "already
gone" as a failed delete, not as success. -/
theorem destroy_absent_returns_failure (p : Provider) (name : String)
    (habs : get_by_name p name = none) :
    delete_server p name = (p, false) :=
  delete_server_absent p name habs

theorem destroy_absent_returns_failure_witness :
    get_by_name providerEmpty "web1" = none
    ∧ delete_server providerEmpty "web1" = (providerEmpty, false) :=
  ⟨by decide, destroy_absent_returns_failure providerEmpty "web1" (by decide)⟩

/-- C8: a destroy attempt that fails with a provider error (the delete call
raises) reports failure, leaves the provider unchanged, and — on the
over-limit handling path — leaves the notified-thresholds map exactly as it
was: no entry is added, removed or modified. -/
theorem destroy_error_keeps_tracker (p : Provider) (notified : Notified)
    (name : String) (usage : ℚ)
    (herr : p.deleteFails name = true) :
    (delete_server p name).2 = false
    ∧ (delete_server p name).1 = p
    ∧ (handle_traffic_exceeded p notified name usage).2.1 = notified := by
  have hd := delete_server_providerError p name herr
  refine ⟨by rw [hd], by rw [hd], ?_⟩
  simp [handle_traffic_exceeded, hd]

theorem destroy_error_keeps_tracker_witness :
    (providerDeleteFails.deleteFails "A" = true)
    ∧ ((delete_server providerDeleteFails "A").2 = false
      ∧ (delete_server providerDeleteFails "A").1 = providerDeleteFails
      ∧ (handle_traffic_exceeded providerDeleteFails notifiedA50 "A" 95).2.1
          = notifiedA50) :=
  ⟨rfl, destroy_error_keeps_tracker providerDeleteFails notifiedA50 "A" 95 rfl⟩

/-- C9: when the traffic probe raises, `get_traffic_usage` returns the
fixed default `{'total': 1000, 'used': 0, 'remaining': 1000}`, so the
caller observes a usage percent of 0 — indistinguishable from a genuinely
unused server. -/
theorem probe_failure_returns_default (s : ServerInfo)
    (hfail : s.probeFails = true) :
    get_traffic_usage s = { total := 1000, used := 0, remaining := 1000 }
    ∧ usagePercentOf (get_traffic_usage s) = 0 := by
  have h : get_traffic_usage s = { total := 1000, used := 0, remaining := 1000 } := by
    unfold get_traffic_usage
    rw [if_pos hfail]
  refine ⟨h, ?_⟩
  rw [h]
  norm_num [usagePercentOf]

theorem probe_failure_returns_default_witness :
    (serverProbeFails.probeFails = true)
    ∧ (get_traffic_usage serverProbeFails
          = { total := 1000, used := 0, remaining := 1000 }
      ∧ usagePercentOf (get_traffic_usage serverProbeFails) = 0) :=
  ⟨rfl, probe_failure_returns_default serverProbeFails rfl⟩

/-- C10: for an over-limit sample, the traffic-exceeded alert is part of
the emitted messages with no condition on the delete outcome (it is sent
before the delete is attempted), and when the delete fails the provider —
hence the server — is left in place. -/
theorem exceeded_alert_sent_before_delete (p : Provider) (notified : Notified)
    (cfg : Config) (name : String) (usage : ℚ)
    (hover : usage ≥ cfg.traffic_limit_percent) :
    Msg.exceeded name usage ∈ (processSample p notified cfg name usage).2.2
    ∧ ((delete_server p name).2 = false →
        (processSample p notified cfg name usage).1 = p) := by
  obtain ⟨hmsgs, hprov⟩ := processSample_over_limit p notified cfg name usage hover
  constructor
  · rw [hmsgs]
    exact List.mem_append_right _ (List.mem_singleton.mpr rfl)
  · intro hfail
    rw [hprov]
    exact delete_server_failed_frame p name hfail

theorem exceeded_alert_sent_before_delete_witness :
    ((95 : ℚ) ≥ cfg90.traffic_limit_percent)
    ∧ (Msg.exceeded "A" 95
          ∈ (processSample providerDeleteFails notifiedA50 cfg90 "A" 95).2.2
      ∧ ((delete_server providerDeleteFails "A").2 = false →
          (processSample providerDeleteFails notifiedA50 cfg90 "A" 95).1
            = providerDeleteFails)) :=
  ⟨by decide,
    exceeded_alert_sent_before_delete providerDeleteFails notifiedA50 cfg90 "A" 95
      (by decide)⟩

/-- C4 counterexample: server A (last warned at 50%) is successfully
destroyed by the scheduled-shutdown path — the completion message is sent
and A is gone from the directory — yet the notified-thresholds map, which
`shutdown_servers` never touches, still holds A's entry: a subsequent
threshold check at usage 55% fires nothing, whereas a never-notified server
would fire 10. -/
theorem reset_on_destroy_counterexample :
    (shutdown_servers providerA).2 = [Msg.shutdownDone "A"]
    ∧ get_by_name (shutdown_servers providerA).1 "A" = none
    ∧ notifiedA50 "A" = some 50
    ∧ (check_notification_thresholds notifiedA50 [10, 20, 30, 50] "A" 55).2.2 = none
    ∧ (check_notification_thresholds notifiedNone [10, 20, 30, 50] "A" 55).2.2 = some 10 := by
  refine ⟨rfl, rfl, rfl, by decide, by decide⟩

/-- C4 amended: only the policy-triggered destroy path resets the tracker:
after `handle_traffic_exceeded` whose delete succeeds, the server's entry
is cleared and a subsequent threshold check fires exactly what it would for
a never-notified server.  Destroys via the manual stop command or the
scheduled shutdown go through `delete_server` alone, which never modifies
the notified map, so they do not reset it. -/
theorem reset_only_on_policy_destroy (p : Provider) (notified : Notified)
    (name : String) (usage : ℚ) (thresholds : List ℚ) (u : ℚ)
    (hdel : (delete_server p name).2 = true) :
    (handle_traffic_exceeded p notified name usage).2.1 name = none
    ∧ (check_notification_thresholds
          (handle_traffic_exceeded p notified name usage).2.1 thresholds name u).2.2
        = (check_notification_thresholds notifiedNone thresholds name u).2.2 := by
  have hn : (handle_traffic_exceeded p notified name usage).2.1
      = clearNotified notified name := by
    simp [handle_traffic_exceeded, hdel]
  have hcleared : clearNotified notified name name = none := by
    simp [clearNotified]
  constructor
  · rw [hn, hcleared]
  · rw [check_fired_eq_find?, check_fired_eq_find?]
    have h1 : getNotified (handle_traffic_exceeded p notified name usage).2.1 name = 0 := by
      rw [hn]
      simp [getNotified, hcleared]
    have h2 : getNotified notifiedNone name = 0 := rfl
    rw [h1, h2]

theorem reset_only_on_policy_destroy_witness :
    ((delete_server providerA "A").2 = true)
    ∧ ((handle_traffic_exceeded providerA notifiedA50 "A" 95).2.1 "A" = none
      ∧ (check_notification_thresholds
            (handle_traffic_exceeded providerA notifiedA50 "A" 95).2.1
            [10, 20, 30, 50] "A" 55).2.2
          = (check_notification_thresholds notifiedNone [10, 20, 30, 50] "A" 55).2.2) :=
  ⟨by decide,
    reset_only_on_policy_destroy providerA notifiedA50 "A" 95 [10, 20, 30, 50] 55
      (by decide)⟩

/-! Rebuild. -/

theorem find?_append_eq_of_none {α : Type} (pr : α → Bool) (l1 l2 : List α)
    (h : l1.find? pr = none) : (l1 ++ l2).find? pr = l2.find? pr := by
  induction l1 with
  | nil => rfl
  | cons x xs ih =>
    rw [List.find?_cons] at h
    rcases hx : pr x with _ | _
    · rw [hx] at h
      rw [List.cons_append, List.find?_cons, hx]
      exact ih h
    · rw [hx] at h
      simp at h

theorem get_by_name_self_name (p : Provider) (name : String) (s : ServerInfo)
    (h : get_by_name p name = some s) : s.name = name := by
  unfold get_by_name at h
  have hp := List.find?_some h
  exact of_decide_eq_true hp

theorem rebuild_server_success (p : Provider) (name : String) (s : ServerInfo)
    (hfind : get_by_name p name = some s)
    (hdel : p.deleteFails name = false)
    (hcre : p.createFails s.name = false) :
    rebuild_server p name
      = ({ p with servers := p.servers.filter (fun x => decide (x.name ≠ s.name))
            ++ [rebuiltServer p s] }, true) := by
  unfold rebuild_server
  rw [hfind]
  simp [hdel, create_server, hcre, rebuiltServer]

/-- C7: for an existing server, a rebuild whose delete and create both
succeed reports success, and the directory afterwards holds, under the same
name, a freshly created server whose name, type, image, location and ssh
keys equal those read from the original server before deletion. -/
theorem rebuild_preserves_spec (p : Provider) (name : String) (s : ServerInfo)
    (hfind : get_by_name p name = some s)
    (hdel : p.deleteFails name = false)
    (hcre : p.createFails name = false) :
    (rebuild_server p name).2 = true
    ∧ ∃ s', get_by_name (rebuild_server p name).1 name = some s'
        ∧ s'.name = s.name ∧ s'.server_type = s.server_type ∧ s'.image = s.image
        ∧ s'.location = s.location ∧ s'.ssh_keys = s.ssh_keys := by
  have hname : s.name = name := get_by_name_self_name p name s hfind
  have hcre' : p.createFails s.name = false := by rw [hname]; exact hcre
  have hreb := rebuild_server_success p name s hfind hdel hcre'
  have hserv : (rebuild_server p name).1.servers
      = p.servers.filter (fun x => decide (x.name ≠ s.name)) ++ [rebuiltServer p s] := by
    rw [hreb]
  refine ⟨by rw [hreb], rebuiltServer p s, ?_, rfl, rfl, rfl, rfl, rfl⟩
  unfold get_by_name
  rw [hserv, find?_append_eq_of_none]
  · rw [List.find?_cons]
    have hpr : decide ((rebuiltServer p s).name = name) = true := by
      exact decide_eq_true (by rw [← hname]; rfl)
    rw [hpr]
  · rw [List.find?_eq_none]
    intro x hx
    have hxne : x.name ≠ s.name :=
      of_decide_eq_true (List.mem_filter.mp hx).2
    simp only [decide_eq_true_eq]
    rw [hname] at hxne
    exact hxne

theorem rebuild_preserves_spec_witness :
    (get_by_name providerWeb "web1" = some serverWeb1)
    ∧ (providerWeb.deleteFails "web1" = false)
    ∧ (providerWeb.createFails "web1" = false)
    ∧ ((rebuild_server providerWeb "web1").2 = true
      ∧ ∃ s', get_by_name (rebuild_server providerWeb "web1").1 "web1" = some s'
          ∧ s'.name = serverWeb1.name ∧ s'.server_type = serverWeb1.server_type
          ∧ s'.image = serverWeb1.image ∧ s'.location = serverWeb1.location
          ∧ s'.ssh_keys = serverWeb1.ssh_keys) :=
  ⟨by decide, rfl, rfl,
    rebuild_preserves_spec providerWeb "web1" serverWeb1 (by decide) rfl rfl⟩

/-! Scheduled shutdown. -/

theorem find?_name_self (L : List ServerInfo)
    (hnodup : (L.map (fun s => s.name)).Nodup) (t : ServerInfo) (ht : t ∈ L) :
    L.find? (fun x => decide (x.name = t.name)) = some t := by
  induction L with
  | nil => cases ht
  | cons x xs ih =>
    rw [List.map_cons, List.nodup_cons] at hnodup
    rcases List.mem_cons.mp ht with rfl | hmem
    · rw [List.find?_cons_of_pos _ (by simp)]
    · have hxne : ¬(x.name = t.name) := by
        intro he
        exact hnodup.1 (he ▸ List.mem_map_of_mem _ hmem)
      rw [List.find?_cons_of_neg _ (by simp [hxne])]
      exact ih hnodup.2 hmem

theorem filter_name_cons (a : String) (x : ServerInfo) (xs : List ServerInfo) :
    (x :: xs).filter (fun y => decide (y.name ≠ a))
      = if x.name = a then xs.filter (fun y => decide (y.name ≠ a))
        else x :: xs.filter (fun y => decide (y.name ≠ a)) := by
  by_cases h : x.name = a <;> simp [List.filter_cons, h]

theorem find?_name_filter (L : List ServerInfo) (a b : String) (t : ServerInfo)
    (h : L.find? (fun x => decide (x.name = b)) = some t) (hne : b ≠ a) :
    (L.filter (fun x => decide (x.name ≠ a))).find? (fun x => decide (x.name = b))
      = some t := by
  induction L with
  | nil => simp at h
  | cons x xs ih =>
    rw [filter_name_cons]
    by_cases hx : x.name = b
    · rw [List.find?_cons_of_pos _ (by simp [hx])] at h
      obtain rfl : x = t := by simpa using h
      rw [if_neg (by rw [hx]; exact hne)]
      rw [List.find?_cons_of_pos _ (by simp [hx])]
    · rw [List.find?_cons_of_neg _ (by simp [hx])] at h
      by_cases hxa : x.name = a
      · rw [if_pos hxa]
        exact ih h
      · rw [if_neg hxa]
        rw [List.find?_cons_of_neg _ (by simp [hx])]
        exact ih h

theorem find?_filter_first (pr : ServerInfo → Bool) (L : List ServerInfo)
    (b : String) (s : ServerInfo)
    (hfind : L.find? (fun x => decide (x.name = b)) = some s)
    (hQ : pr s = true)
    (huniq : ∀ x ∈ L, x.name = b → x = s) :
    (L.filter pr).find? (fun x => decide (x.name = b)) = some s := by
  induction L with
  | nil => simp at hfind
  | cons x xs ih =>
    by_cases hx : x.name = b
    · have hxs : x = s := huniq x (List.mem_cons_self x xs) hx
      subst hxs
      rw [List.filter_cons_of_pos hQ, List.find?_cons_of_pos _ (by simp [hx])]
    · rw [List.find?_cons_of_neg _ (by simp [hx])] at hfind
      have huniq2 : ∀ y ∈ xs, y.name = b → y = s :=
        fun y hy hyb => huniq y (List.mem_cons_of_mem x hy) hyb
      by_cases hpx : pr x = true
      · rw [List.filter_cons_of_pos hpx, List.find?_cons_of_neg _ (by simp [hx])]
        exact ih hfind huniq2
      · rw [List.filter_cons_of_neg hpx]
        exact ih hfind huniq2

theorem eq_of_name_eq_of_nodup (L : List ServerInfo)
    (hnodup : (L.map (fun s => s.name)).Nodup) (a b : ServerInfo)
    (ha : a ∈ L) (hb : b ∈ L) (h : a.name = b.name) : a = b := by
  induction L with
  | nil => cases ha
  | cons x xs ih =>
    rw [List.map_cons, List.nodup_cons] at hnodup
    rcases List.mem_cons.mp ha with rfl | ha' <;> rcases List.mem_cons.mp hb with rfl | hb'
    · rfl
    · exact absurd (h ▸ List.mem_map_of_mem _ hb') hnodup.1
    · exact absurd (h ▸ List.mem_map_of_mem _ ha') hnodup.1
    · exact ih hnodup.2 ha' hb'

theorem shutdownLoop_spec :
    ∀ (l : List ServerInfo) (p : Provider),
      (∀ t ∈ l, get_by_name p t.name = some t) →
      ((l.map (fun s => s.name)).Nodup) →
      (shutdownLoop p l).2
          = (l.filter (fun s => !p.deleteFails s.name)).map
              (fun s => Msg.shutdownDone s.name)
      ∧ (shutdownLoop p l).1.servers
          = p.servers.filter (fun x => decide (x.name ∉
              (l.filter (fun s => !p.deleteFails s.name)).map (fun s => s.name)))
      ∧ (shutdownLoop p l).1.deleteFails = p.deleteFails := by
  intro l
  induction l with
  | nil =>
    intro p _ _
    refine ⟨rfl, ?_, rfl⟩
    simp [shutdownLoop]
  | cons s rest ih =>
    intro p hmem hnodup
    have hs : get_by_name p s.name = some s := hmem s (List.mem_cons_self s rest)
    rw [List.map_cons, List.nodup_cons] at hnodup
    cases hd : p.deleteFails s.name
    case false =>
      have hdel : delete_server p s.name
          = ({ p with servers := p.servers.filter (fun x => decide (x.name ≠ s.name)) },
             true) := by
        unfold delete_server
        rw [hs]
        simp [hd]
      have hloop : shutdownLoop p (s :: rest)
          = ((shutdownLoop
                { p with servers := p.servers.filter (fun x => decide (x.name ≠ s.name)) }
                rest).1,
             Msg.shutdownDone s.name
               :: (shutdownLoop
                    { p with servers := p.servers.filter (fun x => decide (x.name ≠ s.name)) }
                    rest).2) := by
        simp only [shutdownLoop]
        rw [hdel]
        rfl
      have hmem2 : ∀ t ∈ rest,
          get_by_name
            { p with servers := p.servers.filter (fun x => decide (x.name ≠ s.name)) }
            t.name = some t := by
        intro t htm
        have hfound := hmem t (List.mem_cons_of_mem s htm)
        have htne : t.name ≠ s.name := by
          intro he
          exact hnodup.1 (he ▸ List.mem_map_of_mem _ htm)
        unfold get_by_name at hfound ⊢
        exact find?_name_filter p.servers s.name t.name t hfound htne
      obtain ⟨hm, hsrv, hdf⟩ := ih
        { p with servers := p.servers.filter (fun x => decide (x.name ≠ s.name)) }
        hmem2 hnodup.2
      have hm2 : (shutdownLoop
            { p with servers := p.servers.filter (fun x => decide (x.name ≠ s.name)) }
            rest).2
          = (rest.filter (fun t => !p.deleteFails t.name)).map
              (fun t => Msg.shutdownDone t.name) := hm
      have hsrv2 : (shutdownLoop
            { p with servers := p.servers.filter (fun x => decide (x.name ≠ s.name)) }
            rest).1.servers
          = (p.servers.filter (fun x => decide (x.name ≠ s.name))).filter
              (fun x => decide (x.name ∉
                (rest.filter (fun t => !p.deleteFails t.name)).map (fun t => t.name))) := hsrv
      have hdf2 : (shutdownLoop
            { p with servers := p.servers.filter (fun x => decide (x.name ≠ s.name)) }
            rest).1.deleteFails = p.deleteFails := hdf
      have hfcons : (s :: rest).filter (fun t => !p.deleteFails t.name)
          = s :: rest.filter (fun t => !p.deleteFails t.name) :=
        List.filter_cons_of_pos (by simp [hd])
      refine ⟨?_, ?_, ?_⟩
      · rw [hloop, hfcons, List.map_cons, hm2]
      · rw [hloop, hsrv2, hfcons, List.map_cons, List.filter_filter]
        apply List.filter_congr
        intro x _
        by_cases h1 : x.name = s.name <;>
          by_cases h2 : x.name ∈
            (rest.filter (fun t => !p.deleteFails t.name)).map (fun t => t.name) <;>
          simp [h1, h2]
      · rw [hloop]
        exact hdf2
    case true =>
      have hdel : delete_server p s.name = (p, false) := by
        unfold delete_server
        rw [hs]
        simp [hd]
      have hloop : shutdownLoop p (s :: rest) = shutdownLoop p rest := by
        simp only [shutdownLoop]
        rw [hdel]
        rfl
      have hmem2 : ∀ t ∈ rest, get_by_name p t.name = some t :=
        fun t htm => hmem t (List.mem_cons_of_mem s htm)
      obtain ⟨hm, hsrv, hdf⟩ := ih p hmem2 hnodup.2
      have hfcons : (s :: rest).filter (fun t => !p.deleteFails t.name)
          = rest.filter (fun t => !p.deleteFails t.name) :=
        List.filter_cons_of_neg (by simp [hd])
      refine ⟨?_, ?_, ?_⟩
      · rw [hloop, hfcons, hm]
      · rw [hloop, hfcons, hsrv]
      · rw [hloop, hdf]

/-- C6: over a fleet with distinct names, the scheduled shutdown deletes
every currently known server whose delete succeeds, an individual delete
failure does not abort the batch (failing servers simply stay), and the
count of destroyed servers — reported as one completion message per
successful delete (the Python function itself returns no value) — equals
the number of servers whose delete succeeded; concretely, over [A,B,C]
with B's delete failing, A and C are destroyed, B remains, and the
reported count is 2. -/
theorem shutdownAll_best_effort (p : Provider)
    (hnodup : (p.servers.map (fun s => s.name)).Nodup)
    (hlist : p.listFails = false) :
    (shutdown_servers p).2
        = (p.servers.filter (fun s => !p.deleteFails s.name)).map
            (fun s => Msg.shutdownDone s.name)
    ∧ (shutdown_servers p).2.length
        = (p.servers.filter (fun s => !p.deleteFails s.name)).length
    ∧ (∀ s ∈ p.servers, p.deleteFails s.name = false →
        get_by_name (shutdown_servers p).1 s.name = none)
    ∧ (∀ s ∈ p.servers, p.deleteFails s.name = true →
        get_by_name (shutdown_servers p).1 s.name = some s)
    ∧ (shutdown_servers providerABC).2 = [Msg.shutdownDone "A", Msg.shutdownDone "C"]
    ∧ get_by_name (shutdown_servers providerABC).1 "A" = none
    ∧ get_by_name (shutdown_servers providerABC).1 "B" = some serverB
    ∧ (shutdown_servers providerABC).2.length = 2 := by
  have hga : get_all_servers p = p.servers := by
    simp [get_all_servers, hlist]
  have hsd : shutdown_servers p = shutdownLoop p p.servers := by
    unfold shutdown_servers
    rw [hga]
  have hmem : ∀ t ∈ p.servers, get_by_name p t.name = some t := by
    intro t ht
    unfold get_by_name
    exact find?_name_self p.servers hnodup t ht
  obtain ⟨hm, hsrv, -⟩ := shutdownLoop_spec p.servers p hmem hnodup
  refine ⟨?_, ?_, ?_, ?_, by decide, by decide, by decide, by decide⟩
  · rw [hsd]
    exact hm
  · rw [hsd, hm, List.length_map]
  · intro s hsmem hdf0
    rw [hsd]
    unfold get_by_name
    rw [hsrv, List.find?_eq_none]
    intro x hx
    obtain ⟨-, hxQ⟩ := List.mem_filter.mp hx
    have hxnotin : x.name ∉
        (p.servers.filter (fun t => !p.deleteFails t.name)).map (fun t => t.name) :=
      of_decide_eq_true hxQ
    simp only [decide_eq_true_eq]
    intro hxe
    apply hxnotin
    rw [hxe]
    exact List.mem_map_of_mem _
      (List.mem_filter.mpr ⟨hsmem, by simp [hdf0]⟩)
  · intro s hsmem hdf1
    rw [hsd]
    unfold get_by_name
    rw [hsrv]
    apply find?_filter_first _ p.servers s.name s
    · exact find?_name_self p.servers hnodup s hsmem
    · apply decide_eq_true
      intro hin
      obtain ⟨t, htf, htn⟩ := List.mem_map.mp hin
      obtain ⟨htmem, htd⟩ := List.mem_filter.mp htf
      have : t = s := eq_of_name_eq_of_nodup p.servers hnodup t s htmem hsmem htn
      subst this
      rw [hdf1] at htd
      simp at htd
    · intro x hx he
      exact eq_of_name_eq_of_nodup p.servers hnodup x s hx hsmem he

theorem shutdownAll_best_effort_witness :
    ((providerABC.servers.map (fun s => s.name)).Nodup ∧ providerABC.listFails = false)
    ∧ ((shutdown_servers providerABC).2
          = (providerABC.servers.filter (fun s => !providerABC.deleteFails s.name)).map
              (fun s => Msg.shutdownDone s.name)
      ∧ (shutdown_servers providerABC).2.length
          = (providerABC.servers.filter (fun s => !providerABC.deleteFails s.name)).length
      ∧ (∀ s ∈ providerABC.servers, providerABC.deleteFails s.name = false →
          get_by_name (shutdown_servers providerABC).1 s.name = none)
      ∧ (∀ s ∈ providerABC.servers, providerABC.deleteFails s.name = true →
          get_by_name (shutdown_servers providerABC).1 s.name = some s)
      ∧ (shutdown_servers providerABC).2 = [Msg.shutdownDone "A", Msg.shutdownDone "C"]
      ∧ get_by_name (shutdown_servers providerABC).1 "A" = none
      ∧ get_by_name (shutdown_servers providerABC).1 "B" = some serverB
      ∧ (shutdown_servers providerABC).2.length = 2) :=
  ⟨⟨by decide, rfl⟩,
    shutdownAll_best_effort providerABC (by decide) rfl⟩
